import Mathlib

/-!
Verification of the `ttlswisscache` in-memory TTL cache (src/ttlcache.go).

The cache stores `item` records (an absolute nanosecond `deadline` plus an
untyped `value`) in a concurrent swiss map keyed by `uint64`, and a background
cleaner goroutine periodically sweeps out entries whose deadline has passed.

Shallow embedding choices:
- the concurrent swiss map (`csmap.CsMap[uint64, item]`, an external
  dependency) is modelled as an association list `List (Nat × Item α)` with
  its documented map operations `Load` / `Store` / `Delete` / `Clear` /
  `Count` / `Range`; sharding is an internal contention optimisation with no
  sequential observable effect;
- Go's `interface\x7b\x7d` values become a type parameter `α`;
- `uint64` keys become `Nat` (key identity is all the code uses);
- `time.Duration` and `UnixNano` timestamps become `Int` nanoseconds;
- the `done` channel becomes a Boolean `doneClosed`; Go panics (close of a
  closed channel, out-of-range slice write) become `Option.none` results.
-/

namespace TtlCache

set_option linter.unusedVariables false

/-- The stored record from src/ttlcache.go: `type item struct`. -/
structure Item (α : Type) where
  deadline : Int
  value : α
  deriving DecidableEq, Repr

/-- `Load` of the swiss map on the association-list model: the value stored
under `k`, if any. -/
def load {α : Type} : List (Nat × Item α) → Nat → Option (Item α)
  | [], _ => none
  | (k1, it) :: rest, k => if k1 = k then some it else load rest k

/-- `Store` of the swiss map: insert or unconditionally overwrite. -/
def storeK {α : Type} : List (Nat × Item α) → Nat → Item α → List (Nat × Item α)
  | [], k, it => [(k, it)]
  | (k1, it1) :: rest, k, it =>
      if k1 = k then (k, it) :: rest else (k1, it1) :: storeK rest k it

/-- `Delete` of the swiss map: remove the key if present, no-op otherwise. -/
def deleteK {α : Type} (l : List (Nat × Item α)) (k : Nat) : List (Nat × Item α) :=
  l.filter (fun e => e.1 != k)

/-- The cache handle from src/ttlcache.go: `type Cache struct`.  The `done`
channel is modelled by whether it has been closed; the map by its entries. -/
structure Cache (α : Type) where
  doneClosed : Bool
  items : List (Nat × Item α)
  deriving DecidableEq, Repr

/-- `New` (src/ttlcache.go): builds an empty map and an open `done` channel and
returns the cache.  No validation of `resolution` happens here; the background
`cleaner` goroutine (concurrency, not modelled as a step) is handed
`resolution` unchecked. -/
def New (α : Type) (resolution : Int) : Cache α :=
  { doneClosed := false, items := [] }

/-- `Get` (src/ttlcache.go): a plain map load; the deadline is not consulted. -/
def Get {α : Type} (c : Cache α) (key : Nat) : Option α × Bool :=
  match load c.items key with
  | none => (none, false)
  | some cacheItem => (some cacheItem.value, true)

/-- `Set` (src/ttlcache.go): stores `\x7b deadline := now + ttl, value \x7d`,
overwriting unconditionally.  `now` is `time.Now().UnixNano()` passed
explicitly. -/
def Set {α : Type} (now : Int) (c : Cache α) (key : Nat) (value : α) (ttl : Int) :
    Cache α :=
  { c with items := storeK c.items key { deadline := now + ttl, value := value } }

/-- `Delete` (src/ttlcache.go): delegates to the map delete. -/
def Delete {α : Type} (c : Cache α) (key : Nat) : Cache α :=
  { c with items := deleteK c.items key }

/-- `Clear` (src/ttlcache.go): empties the map, touching nothing else. -/
def Clear {α : Type} (c : Cache α) : Cache α :=
  { c with items := [] }

/-- `Close` (src/ttlcache.go): `close(c.done); c.items.Clear(); return nil`.
In Go, `close` on an already-closed channel panics, modelled as `none`; a
successful call returns the new state and the `nil` error (`Option.none`). -/
def Close {α : Type} (c : Cache α) : Option (Cache α × Option String) :=
  if c.doneClosed then none
  else some ({ doneClosed := true, items := [] }, none)

/-- The `Range` + index-write phase of `cleanup` (src/ttlcache.go): walks the
entries, and for each one with `deadline < now` writes its key at position `i`
of the pre-sized slice `k`, incrementing `i`.  A write with `i` out of range
is the Go panic, modelled as `none`. -/
def scanExpired {α : Type} (now : Int) :
    List (Nat × Item α) → List Nat → Nat → Option (List Nat)
  | [], k, _ => some k
  | (key, value) :: rest, k, i =>
      if value.deadline < now then
        if i < k.length then scanExpired now rest (k.set i key) (i + 1) else none
      else scanExpired now rest k i

/-- `cleanup` (src/ttlcache.go): captures `now`, allocates
`k := make([]uint64, Count())` (a zero-filled slice), collects expired keys
into `k` by index, then deletes every element of `k` — including the
zero-valued tail left when fewer than `Count()` entries were expired. -/
def cleanup {α : Type} (now : Int) (items : List (Nat × Item α)) :
    Option (List (Nat × Item α)) :=
  (scanExpired now items (List.replicate items.length 0) 0).map
    (fun k => k.foldl (fun st d => deleteK st d) items)

example : cleanup 1000 [(0, Item.mk 1100 (7 : Nat))] = some [] := by decide

example : cleanup 1000 [(5, Item.mk 900 (7 : Nat)), (6, Item.mk 1100 (8 : Nat))] =
    some [(6, Item.mk 1100 (8 : Nat))] := by decide

example : Get (Set 1000 (New Nat 50) 3 (7 : Nat) 20) 3 = (some 7, true) := by decide

/-- Loading the key just stored yields the stored item. -/
theorem load_storeK_self {α : Type} (l : List (Nat × Item α)) (k : Nat) (it : Item α) :
    load (storeK l k it) k = some it := by
  induction l with
  | nil => simp [storeK, load]
  | cons e rest ih =>
      obtain ⟨k1, it1⟩ := e
      by_cases h : k1 = k
      · simp [storeK, h, load]
      · simp [storeK, h, load, ih]

/-- Loading the key just deleted yields nothing. -/
theorem load_deleteK_self {α : Type} (l : List (Nat × Item α)) (k : Nat) :
    load (deleteK l k) k = none := by
  induction l with
  | nil => rfl
  | cons e rest ih =>
      obtain ⟨k1, it1⟩ := e
      by_cases h : k1 = k
      · simpa [deleteK, List.filter_cons, h] using ih
      · simpa [deleteK, List.filter_cons, h, load] using ih

/-- Deleting an absent key leaves the entries unchanged. -/
theorem deleteK_of_absent {α : Type} (l : List (Nat × Item α)) (k : Nat)
    (h : load l k = none) : deleteK l k = l := by
  induction l with
  | nil => rfl
  | cons e rest ih =>
      obtain ⟨k1, it1⟩ := e
      by_cases hk : k1 = k
      · simp [load, hk] at h
      · simp [load, hk] at h
        simpa [deleteK, List.filter_cons, hk] using ih h

/-- Deleting the same key twice equals deleting it once. -/
theorem deleteK_idem {α : Type} (l : List (Nat × Item α)) (k : Nat) :
    deleteK (deleteK l k) k = deleteK l k := by
  induction l with
  | nil => rfl
  | cons e rest ih =>
      obtain ⟨k1, it1⟩ := e
      by_cases hk : k1 = k
      · simp [deleteK, List.filter_cons, hk] at ih ⊢
      · simp [deleteK, List.filter_cons, hk] at ih ⊢

/-- The scan phase of a sweep pass succeeds whenever the write index plus the
number of entries still to visit fits in the slice. -/
theorem scanExpired_isSome {α : Type} (now : Int) :
    ∀ (es : List (Nat × Item α)) (k : List Nat) (i : Nat),
      i + es.length ≤ k.length → (scanExpired now es k i).isSome = true := by
  intro es
  induction es with
  | nil => intro k i h; simp [scanExpired]
  | cons e rest ih =>
      intro k i h
      obtain ⟨key, value⟩ := e
      simp only [List.length_cons] at h
      by_cases hd : value.deadline < now
      · have hi : i < k.length := by omega
        simp only [scanExpired, hd, if_true, hi]
        exact ih _ _ (by simp [List.length_set]; omega)
      · simp only [scanExpired, hd, if_false]
        exact ih _ _ (by omega)

/-- C1: the claim says a sweep pass deletes exactly the keys whose deadline is
strictly below the captured `now`, keeping every item with `deadline ≥ now`.
The code pre-sizes the key slice with `Count()` zero entries and then deletes
every slice element, so on a store holding only key `0` with deadline `1100`,
a pass at `now = 1000` deletes key `0` even though `1000 ≤ 1100`. -/
theorem c1_sweep_deletes_unexpired_key_zero :
    (1000 : Int) ≤ 1100 ∧
    cleanup 1000 [(0, Item.mk 1100 (7 : Nat))] = some [] ∧
    Option.map (fun s => load s 0) (cleanup 1000 [(0, Item.mk 1100 (7 : Nat))]) =
      some none := by
  decide

/-- C2: for `ttl > 0`, immediately after `Set(k, v, ttl)` at time `now`,
`Get(k)` returns `(v, true)` and the stored item has deadline `now + ttl`:
`Set` overwrites unconditionally and resets the deadline, whatever the prior
state. -/
theorem c2_set_then_get {α : Type} (c : Cache α) (now : Int) (k : Nat) (v : α)
    (t : Int) (h : 0 < t) :
    Get (Set now c k v t) k = (some v, true) ∧
    load (Set now c k v t).items k = some (Item.mk (now + t) v) := by
  refine ⟨?_, ?_⟩
  · simp [Get, Set, load_storeK_self]
  · simp [Set, load_storeK_self]

/-- Witness for C2 at `now = 1000`, key `3`, value `7`, ttl `20`, with a prior
item stored under key `3`. -/
theorem c2_set_then_get_witness :
    (0 : Int) < 20 ∧
    (Get (Set 1000 (Cache.mk false [(3, Item.mk 1 (9 : Nat))]) 3 7 20) 3 =
        (some 7, true) ∧
      load (Set 1000 (Cache.mk false [(3, Item.mk 1 (9 : Nat))]) 3 7 20).items 3 =
        some (Item.mk (1000 + 20) 7)) :=
  ⟨by decide, c2_set_then_get (Cache.mk false [(3, Item.mk 1 9)]) 1000 3 7 20 (by decide)⟩

/-- C3: `Get` never consults the stored deadline: any key present in the store
is returned with flag `true` even when its deadline is already in the past. -/
theorem c3_get_ignores_deadline {α : Type} (c : Cache α) (k : Nat) (it : Item α)
    (now : Int) (hload : load c.items k = some it) (hpast : it.deadline < now) :
    Get c k = (some it.value, true) := by
  simp [Get, hload]

/-- Witness for C3: key `2` holds an item with deadline `5`, already past at
`now = 10`, and `Get` still returns it. -/
theorem c3_get_ignores_deadline_witness :
    load (Cache.mk false [(2, Item.mk 5 (9 : Nat))]).items 2 = some (Item.mk 5 9) ∧
    (5 : Int) < 10 ∧
    Get (Cache.mk false [(2, Item.mk 5 (9 : Nat))]) 2 = (some 9, true) :=
  ⟨by decide, by decide,
    c3_get_ignores_deadline (Cache.mk false [(2, Item.mk 5 9)]) 2 (Item.mk 5 9) 10
      (by decide) (by decide)⟩

/-- C4: the claim says a second `Close` never crashes the process.  The code
runs `close(c.done)` unconditionally, and Go panics when closing an
already-closed channel: the first `Close` on a fresh cache succeeds, the
second panics (modelled as `none`). -/
theorem c4_double_close_panics :
    Close (Cache.mk false ([] : List (Nat × Item Nat))) =
      some (Cache.mk true [], none) ∧
    Option.bind (Close (Cache.mk false ([] : List (Nat × Item Nat))))
      (fun r => Close r.1) = none := by
  decide

/-- C5: the claim says `New` and `Set` reject non-positive durations with an
`InvalidArgument` condition.  The code has no validation: `New (-1)` builds
the cache, and `Set` with `ttl = -5` at `now = 1000` silently stores an item
whose deadline `995` is already in the past, with `Get` returning it. -/
theorem c5_no_invalid_argument_check :
    New Nat (-1) = Cache.mk false [] ∧
    Get (Set 1000 (New Nat (-1)) 3 7 (-5)) 3 = (some 7, true) ∧
    load (Set 1000 (New Nat (-1)) 3 7 (-5)).items 3 = some (Item.mk 995 7) ∧
    (995 : Int) < 1000 := by
  decide

/-- C6: immediately after `Delete(k)`, `Get(k)` returns `(absent, false)`,
whatever the prior state. -/
theorem c6_get_after_delete {α : Type} (c : Cache α) (k : Nat) :
    Get (Delete c k) k = (none, false) := by
  simp [Get, Delete, load_deleteK_self]

/-- C7: deleting an absent key leaves the cache unchanged, and `Delete` is
idempotent on every state. -/
theorem c7_delete_noop_and_idem {α : Type} (c : Cache α) (k : Nat) :
    (load c.items k = none → Delete c k = c) ∧
    Delete (Delete c k) k = Delete c k := by
  refine ⟨fun h => ?_, ?_⟩
  · simp [Delete, deleteK_of_absent _ _ h]
  · simp [Delete, deleteK_idem]

/-- Witness for C7: key `9` is absent from a one-entry cache, so deleting it
changes nothing, and the double delete equals the single one. -/
theorem c7_delete_noop_and_idem_witness :
    (load (Cache.mk false [(4, Item.mk 5 (1 : Nat))]).items 9 = none ∧
      Delete (Cache.mk false [(4, Item.mk 5 (1 : Nat))]) 9 =
        Cache.mk false [(4, Item.mk 5 1)]) ∧
    Delete (Delete (Cache.mk false [(4, Item.mk 5 (1 : Nat))]) 9) 9 =
      Delete (Cache.mk false [(4, Item.mk 5 (1 : Nat))]) 9 :=
  ⟨⟨by decide, (c7_delete_noop_and_idem (Cache.mk false [(4, Item.mk 5 1)]) 9).1 (by decide)⟩,
    (c7_delete_noop_and_idem (Cache.mk false [(4, Item.mk 5 1)]) 9).2⟩

/-- C8: `Clear` empties the store — every `Get` afterwards returns
`(absent, false)` — and leaves the `done` channel untouched, so the sweeper
keeps running. -/
theorem c8_clear_empties_and_keeps_sweeper {α : Type} (c : Cache α) (k : Nat) :
    Get (Clear c) k = (none, false) ∧ (Clear c).doneClosed = c.doneClosed := by
  exact ⟨rfl, rfl⟩

/-- C9: the first `Close` on an open cache closes the `done` channel, clears
the store and returns the `nil` error: afterwards every `Get` returns
`(absent, false)`. -/
theorem c9_first_close {α : Type} (c : Cache α) (h : c.doneClosed = false) :
    ∃ c2, Close c = some (c2, none) ∧ c2.doneClosed = true ∧
      ∀ k, Get c2 k = (none, false) := by
  refine ⟨{ doneClosed := true, items := [] }, ?_, rfl, fun k => rfl⟩
  simp [Close, h]

/-- Witness for C9 on an open cache holding one entry. -/
theorem c9_first_close_witness :
    (Cache.mk false [(1, Item.mk 5 (3 : Nat))]).doneClosed = false ∧
    ∃ c2, Close (Cache.mk false [(1, Item.mk 5 (3 : Nat))]) = some (c2, none) ∧
      c2.doneClosed = true ∧ ∀ k, Get c2 k = (none, false) :=
  ⟨rfl, c9_first_close (Cache.mk false [(1, Item.mk 5 3)]) rfl⟩

/-- C10: in every sequential sweep pass, the running index into the pre-sized
key slice stays within the length taken from `Count()`, so every slice write
is in bounds and `cleanup` never takes the out-of-range branch. -/
theorem c10_cleanup_index_in_bounds {α : Type} (now : Int)
    (items : List (Nat × Item α)) : (cleanup now items).isSome = true := by
  have h := scanExpired_isSome now items (List.replicate items.length 0) 0
    (by simp)
  cases heq : scanExpired now items (List.replicate items.length 0) 0 with
  | none => rw [heq] at h; simp at h
  | some k => simp [cleanup, heq]

end TtlCache
